import Mathlib

/-!
Verification of the SophiaScribbles blogging server against its
natural-language specification.

The development shallowly embeds the request handlers of the Express
server (`src/server.js`, the hardened variant) together with the two
earlier server variants kept in the repository (`src/unnamed/part_002`,
`src/unnamed/part_003`) where a claim refers to them.  Stateful request
handling becomes explicit state passing: every handler is a pure
function from the request data and the current store to a response
status and the updated store.  Clock reads (`Date.now()`,
`new Date().toISOString()`) become an explicit `now : Nat` parameter;
a post's ISO `date` string is modelled by the instant (in milliseconds)
it denotes.  External middleware (the `express-validator` email check)
is modelled as an abstract boolean predicate carried in the
environment.  Fallible lookups return `Option`.
-/

/-- Response outcome taxonomy of the spec (section 7), with the HTTP
status code each name stands for.  The handlers below only ever produce
the constructors that the JavaScript code actually produces. -/
inductive Status where
  | ok            -- 200
  | badRequest    -- 400
  | unauthorized  -- 401
  | notFound      -- 404
  | conflict      -- 409
  | serverError   -- 500
  deriving Repr, DecidableEq

/-- Numeric HTTP status code denoted by each `Status` name. -/
def Status.code : Status → Nat
  | .ok => 200
  | .badRequest => 400
  | .unauthorized => 401
  | .notFound => 404
  | .conflict => 409
  | .serverError => 500

/-- A post record as stored in `blogs/metadata.json` by `server.js`
(fields of `newBlog`, POST /api/blogs handler).  `date` is the creation
instant; the JSON file stores it as an ISO-8601 string. -/
structure Post where
  id : String
  title : String
  author : String
  date : Nat
  excerpt : String
  filename : String
  deriving Repr, DecidableEq

/-- A newsletter subscriber record as stored in
`newsletter-subscribers.json` by `server.js`. -/
structure Subscriber where
  email : String
  subscribedAt : Nat
  id : String
  deriving Repr, DecidableEq

/-- The singleton about-page record stored in `about.json`. -/
structure About where
  title : String
  content : String
  deriving Repr, DecidableEq

/-- Per-client session state (`req.session`).  A fresh session carries
no admin flag; `server.js` sets `isAdmin` and `username` on login. -/
structure Session where
  isAdmin : Bool
  username : String
  deriving Repr, DecidableEq

/-- The session express-session hands a client that has never logged
in, and the result of `req.session.destroy` on logout. -/
def emptySession : Session := { isAdmin := false, username := "" }

/-- Environment-provided configuration read by `server.js`:
`ADMIN_USERNAME`, `ADMIN_PASSWORD`, plus the external
`express-validator` email-syntax predicate, which is a library whose
internals the spec leaves unspecified. -/
structure Env where
  adminUsername : String
  adminPassword : String
  isEmail : String → Bool

/-- Durable state owned by the persistence layer: the post index
(`blogs/metadata.json`), the subscriber list
(`newsletter-subscribers.json`) and the about page (`about.json`). -/
structure ServerState where
  blogs : List Post
  subs : List Subscriber
  about : About
  deriving Repr, DecidableEq

/-! ## String helpers mirrored from the JavaScript -/

/-- Backtick character (emphasis marker stripped by the excerpt code). -/
def backtickChar : Char := Char.ofNat 96

/-- Apostrophe character (escaped by the validator sanitizer). -/
def aposChar : Char := Char.ofNat 39

/-- JavaScript `String.prototype.trim`: whitespace removed from both
ends (kernel-computable model of the library function). -/
def trimStr (s : String) : String :=
  (((s.toList.dropWhile Char.isWhitespace).reverse.dropWhile
    Char.isWhitespace).reverse).asString

/-- JavaScript `substring(0, n)` on a string, counting characters. -/
def takeStr (s : String) (n : Nat) : String :=
  (s.toList.take n).asString

/-- JavaScript `toLowerCase` (kernel-computable model). -/
def toLowerStr (s : String) : String :=
  (s.toList.map Char.toLower).asString

/-- Expansion of one character under the `escape()` sanitizer of
express-validator (validator.js `escape`): HTML-escapes the characters
with special meaning and maps every other character to itself. -/
def escapeChar (c : Char) : List Char :=
  if c = '&' then "&amp;".toList
  else if c = '<' then "&lt;".toList
  else if c = '>' then "&gt;".toList
  else if c = '"' then "&quot;".toList
  else if c = aposChar then "&#x27;".toList
  else if c = '/' then "&#x2F;".toList
  else if c = '\\' then "&#x5C;".toList
  else if c = backtickChar then "&#96;".toList
  else [c]

/-- The `escape()` sanitizer applied to a whole string. -/
def escapeHtml (s : String) : String :=
  ((s.toList.map escapeChar).flatten).asString

/-- Username validation of POST /api/login in `server.js`
(`body('username').trim().isLength ... min 1 max 50`): the trimmed
username must have between 1 and 50 characters. -/
def validUsername (u : String) : Bool :=
  1 ≤ (trimStr u).length && (trimStr u).length ≤ 50

/-- Password validation of POST /api/login in `server.js`
(`body('password').isLength ... min 1 max 100`). -/
def validPassword (p : String) : Bool :=
  1 ≤ p.length && p.length ≤ 100

/-- Characters kept verbatim by the title slug of `server.js`
(POST /api/blogs): the regex class of letters, digits and hyphen. -/
def slugChar (c : Char) : Char :=
  if c.isAlphanum || c == '-' then c else '-'

/-- Safe title derivation of `server.js` (POST /api/blogs):
`title.replace` of every character outside the class by a hyphen, then
`toLowerCase`. -/
def safeTitle (t : String) : String :=
  toLowerStr ((t.toList.map slugChar).asString)

/-- Markdown noise filter of the automatic excerpt in `server.js`:
`replace` removing every literal hash, asterisk, underscore and
backtick character. -/
def stripMdChars (cs : List Char) : List Char :=
  cs.filter (fun c => !(c == '#' || c == '*' || c == '_' || c == backtickChar))

/-- Automatic excerpt of `server.js` (POST /api/blogs):
`content.substring(0, 150)` with the markdown noise characters removed
and an ellipsis appended. -/
def autoExcerpt (content : String) : String :=
  (stripMdChars (content.toList.take 150)).asString ++ "..."

/-! ## Path handling -/

/-- Node `path.basename` (POSIX): trailing separators are ignored and
the portion after the last remaining separator is returned; the empty
string maps to itself and an all-separator path maps to the root
separator. -/
def basename (s : String) : String :=
  let cs := s.toList
  let trimmed := (cs.reverse.dropWhile (fun c => c == '/')).reverse
  if trimmed.isEmpty then (if cs.isEmpty then "" else "/")
  else ((trimmed.reverse.takeWhile (fun c => !(c == '/'))).reverse).asString

/-- Helper `sanitizePath` of `server.js` (lines 120-123): the stored
filename is reduced to `path.basename(filename)` before any file
access. -/
def sanitizePath (filename : String) : String :=
  basename filename

/-- Path template used by `server.js` to read (GET /api/blogs/:id) and
delete (DELETE /api/blogs/:id) a post's content file. -/
def blogFilePath (filename : String) : String :=
  "./blogs/" ++ sanitizePath filename

/-- Splits a character list on a separator character; the result is
the nonempty list of (possibly empty) components. -/
def splitOnChar (sep : Char) : List Char → List (List Char)
  | [] => [[]]
  | c :: rest =>
    match splitOnChar sep rest with
    | [] => [[]]
    | h :: t => if c = sep then [] :: h :: t else (c :: h) :: t

/-- Resolution of a relative path into its list of components, with
empty and dot components dropped and a dot-dot component removing the
component before it, as the operating system resolves the path that
the server hands to the filesystem. -/
def resolveComps (comps : List (List Char)) : List (List Char) :=
  comps.foldl
    (fun acc c =>
      if c = [] ∨ c = ['.'] then acc
      else if c = ['.', '.'] then acc.dropLast
      else acc ++ [c]) []

/-- Resolved component list of a path string. -/
def resolvePath (s : String) : List (List Char) :=
  resolveComps (splitOnChar '/' s.toList)

/-- Whether a path, once resolved, still lies inside the blog storage
directory: its first resolved component is the blogs directory. -/
def insideBlogs (s : String) : Bool :=
  match resolvePath s with
  | b :: _ => b = "blogs".toList
  | [] => false

/-! ## Request handlers of `server.js` -/

/-- A file upload as multer delivers it to the create handler: the
disk filename multer assigned and the file content. -/
structure UploadedFile where
  filename : String
  content : String
  deriving Repr, DecidableEq

/-- Body of a POST /api/blogs request after body parsing: the form
fields, an optional uploaded file, and the optional inline content. -/
structure CreateReq where
  title : String
  author : Option String
  excerpt : Option String
  file : Option UploadedFile
  content : Option String
  deriving Repr, DecidableEq

/-- Record construction of the create handler: builds the `newBlog`
object of `server.js` from current time, request fields, the chosen
filename and the content. -/
def mkPost (now : Nat) (r : CreateReq) (filename content : String) : Post :=
  { id := toString now
    title := takeStr r.title 200
    author :=
      match r.author with
      | some a => if a = "" then "Anonymous" else takeStr a 100
      | none => "Anonymous"
    date := now
    excerpt :=
      match r.excerpt with
      | some e => if e = "" then autoExcerpt content else takeStr e 300
      | none => autoExcerpt content
    filename := filename }

/-- POST /api/blogs handler of `server.js` (after the auth gate):
title validation, content source selection and size cap, record
construction and append to the metadata index. -/
def createBlog (now : Nat) (r : CreateReq) (blogs : List Post) :
    Status × List Post :=
  if trimStr r.title = "" then (.badRequest, blogs)
  else if 200 < r.title.length then (.badRequest, blogs)
  else
    match r.file, r.content with
    | some f, _ =>
      if 1000000 < f.content.length then (.badRequest, blogs)
      else (.ok, blogs ++ [mkPost now r f.filename f.content])
    | none, some content =>
      if 1000000 < content.length then (.badRequest, blogs)
      else
        (.ok, blogs ++
          [mkPost now r (toString now ++ "-" ++ safeTitle r.title ++ ".md") content])
    | none, none => (.badRequest, blogs)

/-- Metadata lookup `blogs.find(b => b.id === id)` shared by the
single-post read and the delete handler. -/
def findBlog (blogs : List Post) (id : String) : Option Post :=
  blogs.find? (fun b => b.id == id)

/-- GET /api/blogs handler of `server.js`: the stored records sorted
by the comparator `new Date(b.date) - new Date(a.date)`, newest
first. -/
def getBlogsHandler (blogs : List Post) : List Post :=
  blogs.mergeSort (fun a b => decide (b.date ≤ a.date))

/-- GET /api/blogs/:id handler of `server.js`, at the metadata level:
the record when the id exists (the handler then reads and renders
`blogFilePath` of its filename), `none` standing for the 404 reply. -/
def getBlogHandler (blogs : List Post) (id : String) : Option Post :=
  findBlog blogs id

/-- DELETE /api/blogs/:id handler of `server.js` (after the auth
gate): 404 when the id is absent, else the content file at
`blogFilePath` is unlinked and every record with that id is filtered
out of the index. -/
def deleteBlogHandler (blogs : List Post) (id : String) :
    Status × List Post :=
  match findBlog blogs id with
  | none => (.notFound, blogs)
  | some _ => (.ok, blogs.filter (fun b => !(b.id == id)))

/-- PUT /api/about handler of `server.js` (after the auth gate):
both fields required (empty strings are falsy), length caps, then a
full overwrite of the singleton record. -/
def putAboutHandler (old : About) (title content : String) :
    Status × About :=
  if title = "" ∨ content = "" then (.badRequest, old)
  else if 200 < title.length then (.badRequest, old)
  else if 100000 < content.length then (.badRequest, old)
  else (.ok, { title := takeStr title 200, content := takeStr content 100000 })

/-- POST /api/newsletter/subscribe handler of `server.js`.  `isEmail`
is the external validator verdict and `email` the request's email
field as the validation middleware hands it to the handler.  An
invalid email and a case-insensitive duplicate are both rejected with
status 400; otherwise one record is appended. -/
def subscribeHandler (isEmail : String → Bool) (now : Nat)
    (email : String) (subs : List Subscriber) :
    Status × List Subscriber :=
  if !(isEmail email && email.length ≤ 100) then (.badRequest, subs)
  else if (subs.find? (fun s => toLowerStr s.email == toLowerStr email)).isSome then
    (.badRequest, subs)
  else
    (.ok, subs ++ [{ email := toLowerStr email, subscribedAt := now, id := toString now }])

/-- DELETE /api/newsletter/subscribers/:id handler of `server.js`
(after the auth gate). -/
def deleteSubscriberHandler (subs : List Subscriber) (id : String) :
    Status × List Subscriber :=
  match subs.find? (fun s => s.id == id) with
  | none => (.notFound, subs)
  | some _ => (.ok, subs.filter (fun s => !(s.id == id)))

/-- POST /api/login handler of `server.js`: the validation chain
(trim, length bounds, escape sanitizer), then the raw string
comparison of the sanitized username and the password against the
configured credentials; success establishes the admin session. -/
def loginHandler (env : Env) (u p : String) : Status × Option Session :=
  if validUsername u && validPassword p then
    if escapeHtml (trimStr u) == env.adminUsername && p == env.adminPassword then
      (.ok, some { isAdmin := true, username := escapeHtml (trimStr u) })
    else (.unauthorized, none)
  else (.badRequest, none)

/-! ## The server as a step machine (variant `src/server.js`) -/

/-- One API request of `server.js`.  For the subscribe request the
email field is the value the validation middleware hands on. -/
inductive Req where
  | login (u p : String)
  | logout
  | authStatus
  | listBlogs
  | getBlog (id : String)
  | createBlog (r : CreateReq)
  | deleteBlog (id : String)
  | getAbout
  | putAbout (title content : String)
  | subscribe (email : String)
  | listSubscribers
  | deleteSubscriber (id : String)
  deriving Repr, DecidableEq

/-- Whether `server.js` routes the request through the `requireAuth`
middleware: the two blog mutations, the about-page update, and the
two subscriber administration endpoints. -/
def Req.isProtected : Req → Bool
  | .createBlog _ => true
  | .deleteBlog _ => true
  | .putAbout _ _ => true
  | .listSubscribers => true
  | .deleteSubscriber _ => true
  | _ => false

/-- One request round of `server.js`: the session cookie state of the
calling client, the durable store, and the request map to the new
session, the new store and the response status.  Protected routes pass
through `requireAuth` first, which replies 401 and leaves everything
unchanged unless the session carries the admin flag. -/
def step (env : Env) (now : Nat) (req : Req) (sess : Session)
    (st : ServerState) : Session × ServerState × Status :=
  match req with
  | .login u p =>
    match loginHandler env u p with
    | (status, some newSess) => (newSess, st, status)
    | (status, none) => (sess, st, status)
  | .logout => (emptySession, st, .ok)
  | .authStatus => (sess, st, .ok)
  | .listBlogs => (sess, st, .ok)
  | .getBlog id =>
    (sess, st, if (getBlogHandler st.blogs id).isSome then .ok else .notFound)
  | .createBlog r =>
    if !sess.isAdmin then (sess, st, .unauthorized)
    else
      let (status, blogs) := createBlog now r st.blogs
      (sess, { st with blogs := blogs }, status)
  | .deleteBlog id =>
    if !sess.isAdmin then (sess, st, .unauthorized)
    else
      let (status, blogs) := deleteBlogHandler st.blogs id
      (sess, { st with blogs := blogs }, status)
  | .getAbout => (sess, st, .ok)
  | .putAbout title content =>
    if !sess.isAdmin then (sess, st, .unauthorized)
    else
      let (status, about) := putAboutHandler st.about title content
      (sess, { st with about := about }, status)
  | .subscribe email =>
    let (status, subs) := subscribeHandler env.isEmail now email st.subs
    (sess, { st with subs := subs }, status)
  | .listSubscribers =>
    if !sess.isAdmin then (sess, st, .unauthorized)
    else (sess, st, .ok)
  | .deleteSubscriber id =>
    if !sess.isAdmin then (sess, st, .unauthorized)
    else
      let (status, subs) := deleteSubscriberHandler st.subs id
      (sess, { st with subs := subs }, status)

/-! ## Early server variants kept in the repository -/

/-- Whitespace-run collapse of the early variants' slug code
(`title.replace` of every whitespace run by one hyphen): the boolean
argument records whether the previous character was whitespace. -/
def collapseWsAux : List Char → Bool → List Char
  | [], _ => []
  | c :: rest, prevWs =>
    if c.isWhitespace then
      if prevWs then collapseWsAux rest true
      else '-' :: collapseWsAux rest true
    else c :: collapseWsAux rest false

/-- Filename slug of the early variants (part_002 and part_003):
whitespace runs become hyphens, then `toLowerCase`. -/
def slugV3 (t : String) : String :=
  toLowerStr ((collapseWsAux t.toList false).asString)

/-- Automatic excerpt of the early variants: as in `server.js` but
without the backtick in the removed character class. -/
def autoExcerptV3 (content : String) : String :=
  ((content.toList.take 150).filter
    (fun c => !(c == '#' || c == '*' || c == '_'))).asString ++ "..."

/-- Record construction of the early variants' create handler: title
and author are stored uncapped, the excerpt falls back to the
automatic one. -/
def mkPostV3 (now : Nat) (r : CreateReq) (filename content : String) : Post :=
  { id := toString now
    title := r.title
    author :=
      match r.author with
      | some a => if a = "" then "Anonymous" else a
      | none => "Anonymous"
    date := now
    excerpt :=
      match r.excerpt with
      | some e => if e = "" then autoExcerptV3 content else e
      | none => autoExcerptV3 content
    filename := filename }

/-- POST /api/blogs handler of the earliest variant
(`src/unnamed/part_003`, lines 87-126): the route carries no
`requireAuth` middleware and no session is consulted, so any client
request with content is served. -/
def createBlogV3 (now : Nat) (r : CreateReq) (blogs : List Post) :
    Status × List Post :=
  match r.file, r.content with
  | some f, _ => (.ok, blogs ++ [mkPostV3 now r f.filename f.content])
  | none, some content =>
    (.ok, blogs ++
      [mkPostV3 now r (toString now ++ "-" ++ slugV3 r.title ++ ".md") content])
  | none, none => (.badRequest, blogs)

/-- Path used by the part_002 variant (lines 127-148 and the delete
handler) to read or delete a post's content file: the stored filename
is interpolated with no sanitization. -/
def blogFilePathV2 (filename : String) : String :=
  "./blogs/" ++ filename

/-! ## Operations present in the repository only outside `src/` -/

/-- Modelled from the spec: `normalizeCoverImage` (spec section 4.2)
has no implementation under `src/` (no variant there stores a
`coverImage` field); the definition follows the spec's words: an input
matching the markdown image-tag pattern is reduced to the captured
URL.  The matcher recognizes an exclamation mark and opening bracket,
an alt text up to the closing bracket, and a parenthesized URL ending
the string. -/
def matchImageTag (s : String) : Option String :=
  match s.toList with
  | '!' :: '[' :: rest =>
    let alt := rest.takeWhile (fun c => !(c == ']'))
    match rest.drop alt.length with
    | ']' :: '(' :: rest2 =>
      let url := rest2.takeWhile (fun c => !(c == ')'))
      match rest2.drop url.length with
      | [')'] => some url.asString
      | _ => none
    | _ => none
  | _ => none

/-- Modelled from the spec: `normalizeCoverImage(input)` (spec
section 4.2): empty input gives the empty string; an input matching
the markdown image-tag pattern gives the captured URL trimmed; any
other input gives the trimmed input itself. -/
def normalizeCoverImage (input : String) : String :=
  if input = "" then ""
  else
    match matchImageTag input with
    | some url => trimStr url
    | none => trimStr input

/-- A post record of the spec's data model (spec section 3), used for
the update operation: the fields of the stored record together with
the inlined content and the normalized cover image. -/
structure SpecPost where
  id : String
  title : String
  author : String
  date : Nat
  excerpt : String
  content : String
  coverImage : String
  filename : String
  deriving Repr, DecidableEq

/-- Body of a PUT /api/blogs/:id request in the spec's update
contract. -/
structure UpdateReq where
  title : String
  author : Option String
  excerpt : Option String
  content : String
  coverImage : Option String
  deriving Repr, DecidableEq

/-- Modelled from the spec: the field overwrite of the update
operation (spec section 4.3, Update): title and content are replaced,
author falls back to the existing one when blank, the excerpt is
re-derived from the new content when not supplied, the cover image is
re-normalized when supplied and preserved otherwise, and the record
syntax leaves `id`, `date` and `filename` untouched. -/
def applyUpdate (b : SpecPost) (r : UpdateReq) : SpecPost :=
  { b with
    title := r.title
    author :=
      match r.author with
      | some a => if a = "" then b.author else a
      | none => b.author
    excerpt :=
      match r.excerpt with
      | some e => if e = "" then autoExcerpt r.content else takeStr e 300
      | none => autoExcerpt r.content
    content := r.content
    coverImage :=
      match r.coverImage with
      | some c => normalizeCoverImage c
      | none => b.coverImage }

/-- Modelled from the spec: `PUT /api/blogs/:id` (spec sections 4.3
and 6) — no update handler exists under `src/`; the spec's contract:
reject a blank title or content with `BadRequest`, reply `NotFound`
for an unknown id, else overwrite the mutable fields of the record
with that id. -/
def updateBlog (blogs : List SpecPost) (id : String) (r : UpdateReq) :
    Status × List SpecPost :=
  if trimStr r.title = "" ∨ trimStr r.content = "" then (.badRequest, blogs)
  else
    match blogs.find? (fun b => b.id == id) with
    | none => (.notFound, blogs)
    | some _ =>
      (.ok, blogs.map (fun b => if b.id == id then applyUpdate b r else b))

/-! ## Concrete fixtures used by witnesses and counterexamples -/

/-- A concrete configuration: one admin identity and a permissive
email validator. -/
def env0 : Env :=
  { adminUsername := "sophia", adminPassword := "pw-123",
    isEmail := fun _ => true }

/-- A concrete about page. -/
def about0 : About := { title := "About Sophia", content := "hello" }

/-- The session of a logged-in admin. -/
def adminSession : Session := { isAdmin := true, username := "sophia" }

/-- A concrete stored post. -/
def post1 : Post :=
  { id := "1", title := "T", author := "A", date := 5, excerpt := "e",
    filename := "1-t.md" }

/-- A concrete store holding one post. -/
def st1 : ServerState := { blogs := [post1], subs := [], about := about0 }

/-- The store after the post is deleted. -/
def st1del : ServerState := { blogs := [], subs := [], about := about0 }

/-! ## Generic helper lemmas -/

theorem toList_append (s t : String) : (s ++ t).toList = s.toList ++ t.toList :=
  String.data_append s t

theorem dropWhile_head_false {α : Type} (p : α → Bool) :
    ∀ (l : List α) (c : α) (rest : List α),
      l.dropWhile p = c :: rest → p c = false := by
  intro l
  induction l with
  | nil => intro c rest h; simp [List.dropWhile] at h
  | cons a t ih =>
    intro c rest h
    by_cases hpa : p a = true
    · rw [List.dropWhile_cons_of_pos hpa] at h
      exact ih c rest h
    · rw [List.dropWhile_cons_of_neg hpa] at h
      cases h
      simpa using hpa

theorem takeWhile_append_mid {α : Type} (p : α → Bool) (l₁ : List α) (a : α)
    (l₂ : List α) (h1 : ∀ x ∈ l₁, p x = true) (h2 : p a = false) :
    (l₁ ++ a :: l₂).takeWhile p = l₁ := by
  induction l₁ with
  | nil => simp [List.takeWhile, h2]
  | cons b t ih =>
    have hb : p b = true := h1 b (by simp)
    simp only [List.cons_append, List.takeWhile_cons_of_pos hb]
    rw [ih (fun x hx => h1 x (by simp [hx]))]

/-! ## C2: listing order -/

/-- C2: for every state of the post index, the GET /api/blogs handler
returns exactly the stored records (a permutation of the index) and in
date order newest first: along the returned list the `date` fields are
non-increasing, regardless of the insertion order in the persisted
index. -/
theorem c2_listing_sorted_desc (blogs : List Post) :
    List.Sorted (fun a b : Post => b.date ≤ a.date) (getBlogsHandler blogs) ∧
    (getBlogsHandler blogs).Perm blogs := by
  constructor
  · have h := @List.sorted_mergeSort Post (fun a b => decide (b.date ≤ a.date))
      (fun a b c hab hbc => by
        simp only [decide_eq_true_eq] at hab hbc ⊢
        exact le_trans hbc hab)
      (fun a b => by
        simp only [Bool.or_eq_true, decide_eq_true_eq]
        exact Nat.le_total b.date a.date)
      blogs
    exact h.imp (fun hab => by simpa using hab)
  · exact List.mergeSort_perm blogs _

/-! ## C3: automatic excerpt -/

theorem autoExcerpt_toList (content : String) :
    (autoExcerpt content).toList =
      stripMdChars (content.toList.take 150) ++ "...".toList :=
  toList_append _ _

theorem autoExcerpt_no_md (content : String) :
    '#' ∉ (autoExcerpt content).toList ∧ '*' ∉ (autoExcerpt content).toList ∧
      '_' ∉ (autoExcerpt content).toList := by
  refine ⟨?_, ?_, ?_⟩ <;>
  · intro hmem
    rw [autoExcerpt_toList] at hmem
    rcases List.mem_append.mp hmem with h1 | h1
    · have h2 := (List.mem_filter.mp h1).2
      simp at h2
    · exact absurd h1 (by decide)

theorem autoExcerpt_length_le (content : String) :
    (autoExcerpt content).length ≤ 153 := by
  have hlen : (autoExcerpt content).length =
      (stripMdChars (content.toList.take 150)).length + 3 := by
    unfold autoExcerpt
    rw [String.length_append]
    rfl
  have h1 : (stripMdChars (content.toList.take 150)).length ≤
      (content.toList.take 150).length :=
    List.length_filter_le _ _
  have h2 : (content.toList.take 150).length ≤ 150 :=
    List.length_take_le _ _
  omega

/-- C3: when a post is created with no explicit excerpt, the stored
excerpt is the automatic one — the first 150 characters of the content
with every literal hash, asterisk, underscore (and backtick) character
removed, followed by an ellipsis — hence it contains no hash, asterisk
or underscore character and its length is at most 153. -/
theorem c3_stored_excerpt (now : Nat) (r : CreateReq) (blogs blogs2 : List Post)
    (hex : r.excerpt = none)
    (h : createBlog now r blogs = (Status.ok, blogs2)) :
    ∃ p c, blogs2 = blogs ++ [p] ∧
      ((∃ f, r.file = some f ∧ c = f.content) ∨
        (r.file = none ∧ r.content = some c)) ∧
      p.excerpt = autoExcerpt c ∧
      '#' ∉ p.excerpt.toList ∧ '*' ∉ p.excerpt.toList ∧
      '_' ∉ p.excerpt.toList ∧ p.excerpt.length ≤ 153 := by
  unfold createBlog at h
  split at h
  · simp at h
  · split at h
    · simp at h
    · split at h
      next f heq =>
        split at h
        · simp at h
        · rw [Prod.mk.injEq] at h
          refine ⟨mkPost now r f.filename f.content, f.content, h.2.symm,
            Or.inl ⟨f, heq, rfl⟩, ?_⟩
          have hx : (mkPost now r f.filename f.content).excerpt =
              autoExcerpt f.content := by
            simp [mkPost, hex]
          rw [hx]
          exact ⟨rfl, (autoExcerpt_no_md _).1, (autoExcerpt_no_md _).2.1,
            (autoExcerpt_no_md _).2.2, autoExcerpt_length_le _⟩
      next content hf hc =>
        split at h
        · simp at h
        · rw [Prod.mk.injEq] at h
          refine ⟨mkPost now r (toString now ++ "-" ++ safeTitle r.title ++ ".md")
              content, content, h.2.symm, Or.inr ⟨hf, hc⟩, ?_⟩
          have hx : (mkPost now r (toString now ++ "-" ++ safeTitle r.title
              ++ ".md") content).excerpt = autoExcerpt content := by
            simp [mkPost, hex]
          rw [hx]
          exact ⟨rfl, (autoExcerpt_no_md _).1, (autoExcerpt_no_md _).2.1,
            (autoExcerpt_no_md _).2.2, autoExcerpt_length_le _⟩
      next hf hc => simp at h

/-- Witness for C3 at a concrete creation request. -/
theorem c3_stored_excerpt_witness :
    ∃ p c, (createBlog 7
      { title := "Hi", author := none, excerpt := none, file := none,
        content := some "# Hello *world*" } []).2 = [] ++ [p] ∧
      p.excerpt = autoExcerpt c ∧ '#' ∉ p.excerpt.toList := by
  have hcreate : createBlog 7
      { title := "Hi", author := none, excerpt := none, file := none,
        content := some "# Hello *world*" } [] =
      (Status.ok,
        [{ id := "7", title := "Hi", author := "Anonymous", date := 7,
           excerpt := " Hello world...", filename := "7-hi.md" }]) := by decide
  obtain ⟨p, c, hap, _, hexc, hns, _⟩ := c3_stored_excerpt 7
    { title := "Hi", author := none, excerpt := none, file := none,
      content := some "# Hello *world*" } []
    [{ id := "7", title := "Hi", author := "Anonymous", date := 7,
       excerpt := " Hello world...", filename := "7-hi.md" }] rfl hcreate
  exact ⟨p, c, by rw [hcreate]; exact hap, hexc, hns⟩

/-! ## C6: delete then get -/

/-- C6: if DELETE /api/blogs/:id succeeds, the record is removed from
the index and a subsequent GET /api/blogs/:id for the same id replies
NotFound. -/
theorem c6_delete_then_get (env : Env) (now now2 : Nat) (id : String)
    (sess sess2 : Session) (st st2 : ServerState)
    (h : step env now (Req.deleteBlog id) sess st = (sess2, st2, Status.ok)) :
    (step env now2 (Req.getBlog id) sess2 st2).2.2 = Status.notFound := by
  simp only [step] at h
  split at h
  · simp at h
  · rcases hdel : deleteBlogHandler st.blogs id with ⟨status, blogs2⟩
    rw [hdel] at h
    simp only [Prod.mk.injEq] at h
    obtain ⟨hsess, hst, hstatus⟩ := h
    unfold deleteBlogHandler at hdel
    split at hdel
    · rw [Prod.mk.injEq] at hdel
      rw [← hdel.1] at hstatus
      simp at hstatus
    · rw [Prod.mk.injEq] at hdel
      have hnone : (st.blogs.filter (fun b => !(b.id == id))).find?
          (fun b => b.id == id) = none := by
        rw [List.find?_eq_none]
        intro x hx
        have hx2 := (List.mem_filter.mp hx).2
        simpa using hx2
      simp only [step]
      subst hst
      simp [getBlogHandler, findBlog, ← hdel.2, hnone]

/-- Witness for C6: deleting the stored post then fetching it. -/
theorem c6_delete_then_get_witness :
    (step env0 9 (Req.getBlog "1") adminSession st1del).2.2 =
      Status.notFound :=
  c6_delete_then_get env0 8 9 "1" adminSession adminSession st1 st1del
    (by decide)

/-! ## C10: subscribe frame conditions -/

/-- C10: a failing subscription request leaves the subscriber store
unchanged; a successful one appends exactly one record, whose email is
the submitted email lowercased and whose id and timestamp are derived
from the request time, leaving every existing record in place. -/
theorem c10_subscribe_frame (isEmail : String → Bool) (now : Nat)
    (email : String) (subs : List Subscriber) :
    ((subscribeHandler isEmail now email subs).1 ≠ Status.ok →
      (subscribeHandler isEmail now email subs).2 = subs) ∧
    ((subscribeHandler isEmail now email subs).1 = Status.ok →
      (subscribeHandler isEmail now email subs).2 =
        subs ++ [{ email := toLowerStr email, subscribedAt := now,
                   id := toString now }]) := by
  unfold subscribeHandler
  split
  · exact ⟨fun _ => rfl, fun h => by simp at h⟩
  · split
    · exact ⟨fun _ => rfl, fun h => by simp at h⟩
    · exact ⟨fun h => absurd rfl h, fun _ => rfl⟩

/-- Witness for C10 at a concrete successful subscription. -/
theorem c10_subscribe_frame_witness :
    (subscribeHandler (fun _ => true) 3 "A@B.com" []).2 =
      [] ++ [{ email := toLowerStr "A@B.com", subscribedAt := 3,
               id := toString 3 }] :=
  (c10_subscribe_frame (fun _ => true) 3 "A@B.com" []).2 (by decide)

/-! ## C5: duplicate subscription -/

/-- C5 counterexample: subscribing a-at-b dot com and then the same
address uppercased leaves one stored subscriber and the second call is
rejected, but the rejection status is 400 BadRequest, not the distinct
Conflict status the claim names. -/
theorem c5_counterexample :
    (subscribeHandler (fun _ => true) 1 "a@b.com" []).1 = Status.ok ∧
    (subscribeHandler (fun _ => true) 2 "A@B.COM"
      (subscribeHandler (fun _ => true) 1 "a@b.com" []).2).1 =
        Status.badRequest ∧
    ((subscribeHandler (fun _ => true) 2 "A@B.COM"
      (subscribeHandler (fun _ => true) 1 "a@b.com" []).2).2).length = 1 ∧
    Status.badRequest ≠ Status.conflict := by decide

/-- C5 amended: a subscription whose email is a case-insensitive
duplicate of a stored subscriber is rejected — with HTTP 400
BadRequest status rather than a distinct Conflict status — and the
store is left unchanged. -/
theorem c5_amended (isEmail : String → Bool) (now : Nat) (email : String)
    (subs : List Subscriber)
    (hvalid : (isEmail email && email.length ≤ 100) = true)
    (hdup : ∃ s ∈ subs, toLowerStr s.email = toLowerStr email) :
    subscribeHandler isEmail now email subs = (Status.badRequest, subs) := by
  unfold subscribeHandler
  have hfind : (subs.find?
      (fun s => toLowerStr s.email == toLowerStr email)).isSome = true := by
    rw [List.find?_isSome]
    obtain ⟨s, hs, he⟩ := hdup
    exact ⟨s, hs, by simpa using he⟩
  simp [hvalid, hfind]

/-- Witness for C5 amended at the concrete duplicate pair. -/
theorem c5_amended_witness :
    subscribeHandler (fun _ => true) 2 "A@B.COM"
      [{ email := "a@b.com", subscribedAt := 1, id := "1" }] =
    (Status.badRequest,
      [{ email := "a@b.com", subscribedAt := 1, id := "1" }]) :=
  c5_amended (fun _ => true) 2 "A@B.COM" _ (by decide)
    ⟨{ email := "a@b.com", subscribedAt := 1, id := "1" }, by simp, by decide⟩

/-! ## C1: auth gate -/

theorem createBlog_fst_ne_unauthorized (now : Nat) (r : CreateReq)
    (blogs : List Post) : (createBlog now r blogs).1 ≠ Status.unauthorized := by
  unfold createBlog
  split
  · simp
  · split
    · simp
    · split
      · split <;> simp
      · split <;> simp
      · simp

theorem deleteBlogHandler_fst_ne_unauthorized (blogs : List Post) (id : String) :
    (deleteBlogHandler blogs id).1 ≠ Status.unauthorized := by
  unfold deleteBlogHandler
  split <;> simp

theorem putAboutHandler_fst_ne_unauthorized (old : About) (t c : String) :
    (putAboutHandler old t c).1 ≠ Status.unauthorized := by
  unfold putAboutHandler
  split
  · simp
  · split
    · simp
    · split <;> simp

theorem deleteSubscriberHandler_fst_ne_unauthorized (subs : List Subscriber)
    (id : String) : (deleteSubscriberHandler subs id).1 ≠ Status.unauthorized := by
  unfold deleteSubscriberHandler
  split <;> simp

/-- C1 amended, for the `server.js` variant: a request to any
protected endpoint (POST /api/blogs, DELETE /api/blogs/:id,
PUT /api/about, GET and DELETE /api/newsletter/subscribers) from a
session without the admin flag is rejected Unauthorized with no state
change; the only request that can turn a session into an admin one is
a login with the configured credentials passing validation; logout
always clears the admin flag, so the same protected request is
rejected again afterwards; and with the admin flag set a protected
request is never rejected Unauthorized. -/
theorem c1_amended (env : Env) (now : Nat) (req : Req) (sess : Session)
    (st : ServerState) :
    (req.isProtected = true → sess.isAdmin = false →
      step env now req sess st = (sess, st, Status.unauthorized)) ∧
    ((step env now req sess st).1.isAdmin = true →
      sess.isAdmin = true ∨
      ∃ u p, req = Req.login u p ∧ (validUsername u && validPassword p) = true ∧
        escapeHtml (trimStr u) = env.adminUsername ∧ p = env.adminPassword) ∧
    (step env now Req.logout sess st).1.isAdmin = false ∧
    (req.isProtected = true → sess.isAdmin = true →
      (step env now req sess st).2.2 ≠ Status.unauthorized) := by
  refine ⟨?_, ?_, ?_, ?_⟩
  · intro hprot hadm
    cases req <;> simp [Req.isProtected] at hprot <;> simp [step, hadm]
  · intro hA
    cases req with
    | login u p =>
      simp only [step] at hA
      rcases hl : loginHandler env u p with ⟨status, osess⟩
      rw [hl] at hA
      unfold loginHandler at hl
      split at hl
      next hv =>
        split at hl
        next hm =>
          simp only [Bool.and_eq_true, beq_iff_eq] at hm
          rw [Prod.mk.injEq] at hl
          exact Or.inr ⟨u, p, rfl, by assumption, hm.1, hm.2⟩
        next hm =>
          rw [Prod.mk.injEq] at hl
          rw [← hl.2] at hA
          exact Or.inl hA
      next hv =>
        rw [Prod.mk.injEq] at hl
        rw [← hl.2] at hA
        exact Or.inl hA
    | logout => simp [step, emptySession] at hA
    | authStatus => exact Or.inl (by simpa [step] using hA)
    | listBlogs => exact Or.inl (by simpa [step] using hA)
    | getBlog id => exact Or.inl (by simpa [step] using hA)
    | createBlog r =>
      simp only [step] at hA
      split at hA
      · exact Or.inl hA
      · rcases hc : createBlog now r st.blogs with ⟨status, blogs2⟩
        rw [hc] at hA
        exact Or.inl hA
    | deleteBlog id =>
      simp only [step] at hA
      split at hA
      · exact Or.inl hA
      · rcases hc : deleteBlogHandler st.blogs id with ⟨status, blogs2⟩
        rw [hc] at hA
        exact Or.inl hA
    | getAbout => exact Or.inl (by simpa [step] using hA)
    | putAbout t c =>
      simp only [step] at hA
      split at hA
      · exact Or.inl hA
      · rcases hc : putAboutHandler st.about t c with ⟨status, about2⟩
        rw [hc] at hA
        exact Or.inl hA
    | subscribe email =>
      simp only [step] at hA
      exact Or.inl hA
    | listSubscribers =>
      simp only [step] at hA
      split at hA
      · exact Or.inl hA
      · exact Or.inl hA
    | deleteSubscriber id =>
      simp only [step] at hA
      split at hA
      · exact Or.inl hA
      · rcases hc : deleteSubscriberHandler st.subs id with ⟨status, subs2⟩
        rw [hc] at hA
        exact Or.inl hA
  · simp [step, emptySession]
  · intro hprot hadm
    cases req <;> simp [Req.isProtected] at hprot
    case createBlog r =>
      simp only [step, hadm]
      rcases hc : createBlog now r st.blogs with ⟨status, blogs2⟩
      have := createBlog_fst_ne_unauthorized now r st.blogs
      rw [hc] at this
      simpa [hc] using this
    case deleteBlog id =>
      simp only [step, hadm]
      rcases hc : deleteBlogHandler st.blogs id with ⟨status, blogs2⟩
      have := deleteBlogHandler_fst_ne_unauthorized st.blogs id
      rw [hc] at this
      simpa [hc] using this
    case putAbout t c =>
      simp only [step, hadm]
      rcases hc : putAboutHandler st.about t c with ⟨status, about2⟩
      have := putAboutHandler_fst_ne_unauthorized st.about t c
      rw [hc] at this
      simpa [hc] using this
    case listSubscribers =>
      simp [step, hadm]
    case deleteSubscriber id =>
      simp only [step, hadm]
      rcases hc : deleteSubscriberHandler st.subs id with ⟨status, subs2⟩
      have := deleteSubscriberHandler_fst_ne_unauthorized st.subs id
      rw [hc] at this
      simpa [hc] using this

/-- Witness for C1 amended: a delete request with a fresh session is
rejected Unauthorized and changes nothing. -/
theorem c1_amended_witness :
    step env0 3 (Req.deleteBlog "zzz") emptySession st1 =
      (emptySession, st1, Status.unauthorized) :=
  (c1_amended env0 3 (Req.deleteBlog "zzz") emptySession st1).1 rfl rfl

/-- C1 counterexample: in the early variant (src/unnamed/part_003) the
POST /api/blogs route has no auth middleware, so a creation request
carrying no credential at all succeeds instead of being rejected
Unauthorized. -/
theorem c1_counterexample :
    (createBlogV3 7
      { title := "t", author := none, excerpt := none,
        file := none, content := some "hello" } []).1 = Status.ok ∧
    Status.ok ≠ Status.unauthorized :=
  ⟨rfl, by decide⟩

/-! ## C4: login characterization -/

/-- C4 counterexample: the claim says every input other than the
configured credential pair yields Unauthorized, but a request failing
the validation shell — here an empty password — is answered with 400
BadRequest, not 401 Unauthorized. -/
theorem c4_counterexample :
    (loginHandler env0 "sophia" "").1 = Status.badRequest ∧
    Status.badRequest ≠ Status.unauthorized := by decide

/-- C4 amended, for the `server.js` variant: a credential is issued
exactly when the input passes the validation shell (trimmed username
of 1 to 50 characters, password of 1 to 100 characters) and the
sanitized trimmed username equals the configured admin username and
the password equals the configured admin password under raw string
comparison (this variant performs no hash-form detection or hash
verification); a validated non-matching input yields Unauthorized; an
input failing validation yields BadRequest. -/
theorem c4_amended (env : Env) (u p : String) :
    ((∃ s, (loginHandler env u p).2 = some s ∧ s.isAdmin = true) ↔
      ((validUsername u && validPassword p) = true ∧
        escapeHtml (trimStr u) = env.adminUsername ∧ p = env.adminPassword)) ∧
    ((loginHandler env u p).1 = Status.unauthorized ↔
      ((validUsername u && validPassword p) = true ∧
        ¬(escapeHtml (trimStr u) = env.adminUsername ∧
          p = env.adminPassword))) ∧
    ((loginHandler env u p).1 = Status.badRequest ↔
      ¬(validUsername u && validPassword p) = true) := by
  unfold loginHandler
  by_cases hv : (validUsername u && validPassword p) = true
  · simp only [hv, if_true]
    by_cases hm : (escapeHtml (trimStr u) == env.adminUsername &&
        p == env.adminPassword) = true
    · have hm2 : escapeHtml (trimStr u) = env.adminUsername ∧
          p = env.adminPassword := by
        simpa [Bool.and_eq_true, beq_iff_eq] using hm
      simp [hm, hm2]
    · have hm2 : ¬(escapeHtml (trimStr u) = env.adminUsername ∧
          p = env.adminPassword) := by
        simpa [Bool.and_eq_true, beq_iff_eq] using hm
      simp [hm, hm2, hv]
  · simp [hv]

/-! ## C7: path sanitization -/

theorem basename_chars (f : String)
    (h : f.toList.any (fun c => !(c == '/')) = true) :
    ∃ cs : List Char, sanitizePath f = cs.asString ∧ cs ≠ [] ∧
      ∀ c ∈ cs, ¬ c = '/' := by
  unfold sanitizePath basename
  rcases hd : f.toList.reverse.dropWhile (fun c => c == '/') with _ | ⟨c, rest⟩
  · exfalso
    rw [List.dropWhile_eq_nil_iff] at hd
    rw [List.any_eq_true] at h
    obtain ⟨x, hx, hxp⟩ := h
    have hx2 := hd x (List.mem_reverse.mpr hx)
    simp at hxp hx2
    exact hxp hx2
  · have hc : (c == '/') = false :=
      dropWhile_head_false (fun x => x == '/') f.toList.reverse c rest hd
    have hq : (fun x => !(x == '/')) c = true := by simp [hc]
    refine ⟨((c :: rest).takeWhile (fun x => !(x == '/'))).reverse, ?_, ?_, ?_⟩
    · dsimp only
      rw [hd, List.reverse_reverse]
      rw [if_neg (by simp)]
    · have htw : List.takeWhile (fun x => !(x == '/')) (c :: rest)
          = c :: List.takeWhile (fun x => !(x == '/')) rest :=
        List.takeWhile_cons_of_pos (by simp [hc])
      rw [htw]
      simp
    · intro x hx
      rw [List.mem_reverse] at hx
      have := List.mem_takeWhile_imp hx
      simpa using this

theorem splitOnChar_no_sep (sep : Char) :
    ∀ cs : List Char, (∀ c ∈ cs, ¬ c = sep) → splitOnChar sep cs = [cs] := by
  intro cs
  induction cs with
  | nil => intro _; rfl
  | cons c rest ih =>
    intro h
    have hr := ih (fun x hx => h x (by simp [hx]))
    have hc : ¬ c = sep := h c (by simp)
    simp [splitOnChar, hr, hc]

theorem splitOnChar_blogs_path (cs : List Char) (h : ∀ c ∈ cs, ¬ c = '/') :
    splitOnChar '/' ("./blogs/".toList ++ cs) =
      [['.'], ['b', 'l', 'o', 'g', 's'], cs] := by
  have h1 : "./blogs/".toList = ['.', '/', 'b', 'l', 'o', 'g', 's', '/'] := rfl
  rw [h1]
  simp [splitOnChar, splitOnChar_no_sep '/' cs h]

/-- C7 amended, for the `server.js` variant: the sanitized filename
used to read or delete a post's content file has all directory
components stripped (it contains no path separator), and unless the
sanitized name is itself the bare parent-directory reference — which
`path.basename` does not strip — the resulting file path resolves
inside the blog storage directory. -/
theorem c7_amended (f : String)
    (h : f.toList.any (fun c => !(c == '/')) = true) :
    '/' ∉ (sanitizePath f).toList ∧
    (sanitizePath f ≠ ".." → insideBlogs (blogFilePath f) = true) := by
  obtain ⟨cs, heq, hne, hns⟩ := basename_chars f h
  constructor
  · rw [heq]
    intro hmem
    exact hns '/' hmem rfl
  · intro hdd
    have hcs : cs ≠ ['.', '.'] := by
      intro hx
      rw [hx] at heq
      exact hdd heq
    unfold insideBlogs resolvePath blogFilePath
    rw [heq]
    have htl : ("./blogs/" ++ cs.asString).toList = "./blogs/".toList ++ cs :=
      toList_append _ _
    rw [htl, splitOnChar_blogs_path cs hns]
    unfold resolveComps
    by_cases h1 : cs = ['.']
    · simp [h1]
    · simp [List.foldl, hne, h1, hcs]

/-- Witness for C7 amended at a concrete ordinary filename. -/
theorem c7_amended_witness :
    '/' ∉ (sanitizePath "notes.md").toList ∧
    (sanitizePath "notes.md" ≠ ".." →
      insideBlogs (blogFilePath "notes.md") = true) :=
  c7_amended "notes.md" (by decide)

/-- C7 counterexample: the claim promises that parent-directory
references are stripped, but sanitizing the stored filename consisting
of two dots leaves it unchanged and the resulting read/delete path
resolves outside the blog storage directory. -/
theorem c7_counterexample :
    sanitizePath ".." = ".." ∧ insideBlogs (blogFilePath "..") = false := by
  decide

/-! ## C8: update immutability -/

/-- C8: a successful PUT /api/blogs/:id never changes any record's
`id`, `date` or `filename`: the projection of the index onto these
fields is unchanged, so only title, author, excerpt, content and
coverImage can differ. -/
theorem c8_update_immutable (blogs blogs2 : List SpecPost) (id : String)
    (r : UpdateReq)
    (h : updateBlog blogs id r = (Status.ok, blogs2)) :
    blogs2.map (fun b => (b.id, b.date, b.filename)) =
      blogs.map (fun b => (b.id, b.date, b.filename)) := by
  unfold updateBlog at h
  split at h
  · simp at h
  · split at h
    · simp at h
    · rw [Prod.mk.injEq] at h
      rw [← h.2, List.map_map]
      apply List.map_congr_left
      intro b _
      by_cases hb : b.id = id
      · simp [hb, applyUpdate]
      · simp [hb]

/-- Witness for C8 at a concrete update. -/
theorem c8_update_immutable_witness :
    ((updateBlog
      [{ id := "1", title := "T", author := "A", date := 5, excerpt := "e",
         content := "c", coverImage := "", filename := "1-t.md" }] "1"
      { title := "New", author := none, excerpt := some "E",
        content := "body", coverImage := none }).2).map
      (fun b => (b.id, b.date, b.filename)) = [("1", 5, "1-t.md")] := by
  have h := c8_update_immutable
    [{ id := "1", title := "T", author := "A", date := 5, excerpt := "e",
       content := "c", coverImage := "", filename := "1-t.md" }]
    (updateBlog
      [{ id := "1", title := "T", author := "A", date := 5, excerpt := "e",
         content := "c", coverImage := "", filename := "1-t.md" }] "1"
      { title := "New", author := none, excerpt := some "E",
        content := "body", coverImage := none }).2
    "1"
    { title := "New", author := none, excerpt := some "E",
      content := "body", coverImage := none }
    (by decide)
  rw [h]
  decide

/-! ## C9: cover image normalization -/

theorem matchImageTag_concat (alt url : String)
    (halt : ']' ∉ alt.toList) (hurl : ')' ∉ url.toList) :
    matchImageTag ("![" ++ alt ++ "](" ++ url ++ ")") = some url := by
  have htl : ("![" ++ alt ++ "](" ++ url ++ ")").toList
      = '!' :: '[' :: (alt.toList ++ ']' :: '(' :: (url.toList ++ [')'])) := by
    have e1 : ("![" ++ alt ++ "](" ++ url ++ ")").toList
        = "![".toList ++ (alt.toList ++ ("](".toList ++ (url.toList
            ++ ")".toList))) := by
      simp [toList_append, List.append_assoc]
    rw [e1]
    rfl
  unfold matchImageTag
  rw [htl]
  have h1 : (alt.toList ++ ']' :: '(' :: (url.toList ++ [')'])).takeWhile
      (fun c => !(c == ']')) = alt.toList :=
    takeWhile_append_mid _ _ _ _
      (fun x hx => by
        simp only [Bool.not_eq_true']
        rw [beq_eq_false_iff_ne]
        intro hc
        exact halt (hc ▸ hx))
      (by simp)
  have h2 : (alt.toList ++ ']' :: '(' :: (url.toList ++ [')'])).drop
      alt.toList.length = ']' :: '(' :: (url.toList ++ [')']) :=
    List.drop_left _ _
  have h3 : (url.toList ++ [')']).takeWhile (fun c => !(c == ')'))
      = url.toList :=
    takeWhile_append_mid _ _ _ _
      (fun x hx => by
        simp only [Bool.not_eq_true']
        rw [beq_eq_false_iff_ne]
        intro hc
        exact hurl (hc ▸ hx))
      (by simp)
  have h4 : (url.toList ++ [')']).drop url.toList.length = [')'] :=
    List.drop_left _ _
  simp only [h1, h2, h3, h4]
  rfl

/-- C9: cover-image normalization maps the empty input to the empty
string, an input of markdown image-tag shape to the captured URL
trimmed, and any non-matching input to the trimmed input itself; in
particular the image tag around the sample URL normalizes to that URL
and a bare URL normalizes to itself. -/
theorem c9_normalize_cover (alt url : String)
    (halt : ']' ∉ alt.toList) (hurl : ')' ∉ url.toList) :
    normalizeCoverImage "" = "" ∧
    normalizeCoverImage ("![" ++ alt ++ "](" ++ url ++ ")") = trimStr url ∧
    (∀ s, s ≠ "" → matchImageTag s = none →
      normalizeCoverImage s = trimStr s) ∧
    normalizeCoverImage "![pic](https://x/y.png)" = "https://x/y.png" ∧
    normalizeCoverImage "https://x/y.png" = "https://x/y.png" := by
  refine ⟨rfl, ?_, ?_, by decide, by decide⟩
  · have hne : ("![" ++ alt ++ "](" ++ url ++ ")") ≠ "" := by
      intro hx
      have hlen := congrArg String.length hx
      simp only [String.length_append] at hlen
      have h2 : ("![" : String).length = 2 := rfl
      rw [h2] at hlen
      simp at hlen
    unfold normalizeCoverImage
    rw [if_neg hne, matchImageTag_concat alt url halt hurl]
  · intro s hs hm
    unfold normalizeCoverImage
    rw [if_neg hs, hm]

/-- Witness for C9 at the concrete image tag of the spec's example. -/
theorem c9_normalize_cover_witness :
    normalizeCoverImage "![pic](https://x/y.png)" = "https://x/y.png" :=
  (c9_normalize_cover "pic" "https://x/y.png" (by decide) (by decide)).2.2.2.1

/-- Witness for C4 amended: the configured credentials do log in. -/
theorem c4_amended_witness :
    ∃ s, (loginHandler env0 "sophia" "pw-123").2 = some s ∧
      s.isAdmin = true :=
  (c4_amended env0 "sophia" "pw-123").1.mpr ⟨by decide, by decide, by decide⟩
